import Mathlib

/-!
Verification of the campaign dispatch engine of `app/services/campaign.py`
(class `CampaignService`) against its natural-language specification.

The engine is embedded shallowly:

* Python strings are `List Char`; `str.replace(old, new)` is `replaceAll`
  (left-to-right, non-overlapping, the replacement text is never rescanned,
  exactly as in CPython).
* The per-tenant status dictionary `self.campaign_status` is a function
  `Nat → Option CampaignStatus`; the task queue `self.message_queue` is a FIFO
  `List Task` (head = next task to be dequeued).
* Machine floats (`time.time()`, progress percentages) are modelled as exact
  rationals; Python `round` (banker's rounding, half to even) is `pyRoundInt` /
  `pyRound1`.
* External collaborators (`User.get_by_id`, the WhatsApp gateway, the message
  log and the contact table) are oracles: one dispatcher iteration takes a
  `SendOutcome` saying whether the user lookup failed, the gateway returned
  success / failure, or the processing raised an exception.  Side effects on the
  log and on contact rows are recorded in the engine state
  (`message_log`, `contact_updates`, `send_attempts`).
* One iteration of `_background_worker` is the atomic step `worker_step`;
  `start_campaign`, `start_campaign_with_media`, `stop_campaign` and
  `get_campaign_progress` are the other operations; arbitrary interleavings are
  sequences of `Op` applied by `runSteps`.
-/

namespace MessageHub

/-! ### Python string replacement

`replaceAllAux pat rep s skip` scans `s`; while `skip > 0` the characters are
ones already consumed by a match and are dropped.  At `skip = 0`, when `pat` is
a prefix of the remaining input the replacement is emitted and the matched
characters are skipped, otherwise one character is copied.  This is the
semantics of CPython `str.replace` for a non-empty pattern. -/
def replaceAllAux (pat rep : List Char) : List Char → Nat → List Char
  | [], _ => []
  | _ :: rest, Nat.succ skip => replaceAllAux pat rep rest skip
  | c :: rest, 0 =>
    if pat ≠ [] ∧ pat.isPrefixOf (c :: rest) then
      rep ++ replaceAllAux pat rep rest (pat.length - 1)
    else
      c :: replaceAllAux pat rep rest 0

/-- Python `s.replace(pat, rep)` for a non-empty pattern. -/
def replaceAll (pat rep s : List Char) : List Char :=
  replaceAllAux pat rep s 0

/-! ### Python rounding on exact rationals -/
/-- Python `round(q)`: nearest integer, ties to even (banker's rounding). -/
def pyRoundInt (q : ℚ) : ℤ :=
  let f := ⌊q⌋
  let r := q - (f : ℚ)
  if r < 1/2 then f
  else if 1/2 < r then f + 1
  else if f % 2 = 0 then f else f + 1

/-- Python `round(q, 1)`: one decimal digit, ties to even. -/
def pyRound1 (q : ℚ) : ℚ :=
  (pyRoundInt (q * 10) : ℚ) / 10

/-! ### Data model -/
/-- One entry of the contact batch handed to `start_campaign*`:
`contact['phone']` is mandatory (a `KeyError` otherwise), `contact.get('name',
'User')` defaults when the key is absent, hence `name : Option`. -/
structure Contact where
  phone : List Char
  name : Option (List Char)
deriving DecidableEq

/-- Opaque reference to one uploaded media file; the engine only passes these
through and counts them. -/
abbrev MediaFile := Nat

/-- One queued task, the dict built in `start_campaign` /
`start_campaign_with_media`.  `media_files` is `none` when the key is absent
(plain `start_campaign`) or was `None`. -/
structure Task where
  user_id : Nat
  phone : List Char
  message : List Char
  media_files : Option (List MediaFile)
  delay : Nat
deriving DecidableEq

/-- `campaign_status[user]['status']` values written by the engine. -/
inductive CState
  | running
  | stopped
  | completed
deriving DecidableEq

/-- One value of the `self.campaign_status` dict.  `has_media` is `none` when
the key is absent (plain `start_campaign` does not write it). -/
structure CampaignStatus where
  status : CState
  total : Nat
  processed : Nat
  sent : Nat
  failed : Nat
  start_time : ℚ
  delay : Nat
  has_media : Option Bool
deriving DecidableEq

/-- A row appended by `_log_message` (persisted `Message`). -/
structure LogEntry where
  user_id : Nat
  phone : List Char
  message : List Char
  status : List Char
deriving DecidableEq

/-- Return dict of `start_campaign*` / `stop_campaign`: `success` plus either a
`message` or an `error` key. -/
structure OpResult where
  success : Bool
  message : Option (List Char)
  error : Option (List Char)
deriving DecidableEq

/-- The engine's mutable state plus the observable trace of its external side
effects: `message_log` (rows written via `_log_message`), `contact_updates`
(rows `(user_id, phone, status)` written via `_update_contact_status`) and
`send_attempts` (gateway calls `(user_id, phone)` actually issued). -/
structure EngineState where
  campaign_status : Nat → Option CampaignStatus
  message_queue : List Task
  message_log : List LogEntry
  contact_updates : List (Nat × List Char × List Char)
  send_attempts : List (Nat × List Char)

/-- Dict update `self.campaign_status[u] = st`. -/
def setStatus (tbl : Nat → Option CampaignStatus) (u : Nat) (st : CampaignStatus) :
    Nat → Option CampaignStatus :=
  fun v => if v = u then some st else tbl v

/-- Fresh `CampaignService`: empty dict, empty queue, nothing logged. -/
def initState : EngineState :=
  { campaign_status := fun _ => none
    message_queue := []
    message_log := []
    contact_updates := []
    send_attempts := [] }

/-! ### Message personalization -/
/-- `contact.get('name', 'User')`. -/
def contactName (c : Contact) : List Char :=
  c.name.getD ("User".toList)

/-- `name or 'User'`: Python falls back on the empty (falsy) string. -/
def defaultName (name : List Char) : List Char :=
  if name = [] then "User".toList else name

/-- `CampaignService._personalize_message`:
`template.replace('{name}', name or 'User').replace('{phone}', phone)` —
note the two replacements are sequential, the second scans the output of the
first. -/
def personalizeMessage (template name phone : List Char) : List Char :=
  replaceAll ("{phone}".toList) phone
    (replaceAll ("{name}".toList) (defaultName name) template)

/-! ### Engine operations -/
/-- The task dict built per contact in `start_campaign` (no `media_files`
key). -/
def mkPlainTask (user_id : Nat) (template : List Char) (delay : Nat)
    (c : Contact) : Task :=
  { user_id := user_id
    phone := c.phone
    message := personalizeMessage template (contactName c) c.phone
    media_files := none
    delay := delay }

/-- Python truthiness of the `media_files` argument: `None` and `[]` are
falsy. -/
def mediaTruthy : Option (List MediaFile) → Bool
  | none => false
  | some l => !l.isEmpty

/-- The task dict built per contact in `start_campaign_with_media`; the message
is personalized only when the template is non-empty (truthy). -/
def mkMediaTask (user_id : Nat) (template : List Char) (delay : Nat)
    (media_files : Option (List MediaFile)) (c : Contact) : Task :=
  { user_id := user_id
    phone := c.phone
    message :=
      if template ≠ [] then personalizeMessage template (contactName c) c.phone
      else []
    media_files := media_files
    delay := delay }

/-- `CampaignService.start_campaign(user_id, contacts, message_template,
delay)` at wall-clock time `now` (`time.time()`). -/
def start_campaign (s : EngineState) (user_id : Nat) (contacts : List Contact)
    (message_template : List Char) (delay : Nat) (now : ℚ) :
    OpResult × EngineState :=
  if contacts = [] then
    ({ success := false, message := none, error := some ("No contacts provided".toList) }, s)
  else if message_template = [] then
    ({ success := false, message := none,
       error := some ("Message template is required".toList) }, s)
  else
    let st : CampaignStatus :=
      { status := .running, total := contacts.length, processed := 0, sent := 0,
        failed := 0, start_time := now, delay := delay, has_media := none }
    ({ success := true,
       message := some ("Campaign started! ".toList ++ Nat.toDigits 10 contacts.length
         ++ " messages queued for processing.".toList)
       error := none },
     { s with
        campaign_status := setStatus s.campaign_status user_id st
        message_queue := s.message_queue ++ contacts.map (mkPlainTask user_id message_template delay) })

/-- `CampaignService.start_campaign_with_media(user_id, contacts,
message_template, delay, media_files)` at wall-clock time `now`. -/
def start_campaign_with_media (s : EngineState) (user_id : Nat)
    (contacts : List Contact) (message_template : List Char) (delay : Nat)
    (media_files : Option (List MediaFile)) (now : ℚ) :
    OpResult × EngineState :=
  if contacts = [] then
    ({ success := false, message := none, error := some ("No contacts provided".toList) }, s)
  else if message_template = [] ∧ mediaTruthy media_files = false then
    ({ success := false, message := none,
       error := some ("Either message or media files are required".toList) }, s)
  else
    let st : CampaignStatus :=
      { status := .running, total := contacts.length, processed := 0, sent := 0,
        failed := 0, start_time := now, delay := delay,
        has_media := some (mediaTruthy media_files) }
    ({ success := true,
       message := some ("Campaign started! ".toList ++ Nat.toDigits 10 contacts.length
         ++ " messages".toList
         ++ (if mediaTruthy media_files then
              " with ".toList
                ++ Nat.toDigits 10 ((media_files.getD []).length)
                ++ " media files".toList
             else [])
         ++ " queued for processing.".toList)
       error := none },
     { s with
        campaign_status := setStatus s.campaign_status user_id st
        message_queue := s.message_queue
          ++ contacts.map (mkMediaTask user_id message_template delay media_files) })

/-- The dict returned by `get_campaign_progress`.  `status = none` renders the
`'none'` string of the no-campaign reply; `start_time`, `delay` and `has_media`
are `none` when the corresponding key is absent from the returned dict. -/
structure ProgressView where
  status : Option CState
  total : Nat
  processed : Nat
  sent : Nat
  failed : Nat
  percentage : ℚ
  eta : ℤ
  start_time : Option ℚ
  delay : Option Nat
  has_media : Option Bool
deriving DecidableEq

/-- `CampaignService.get_campaign_progress(user_id)` evaluated at wall-clock
time `now`.  The rate guard `if rate > 0` of the source is kept; with rational
division the Python `ZeroDivisionError` at `elapsed = 0` cannot be reproduced,
that case also falls into the `rate > 0` guard and yields `eta = 0`. -/
def get_campaign_progress (s : EngineState) (user_id : Nat) (now : ℚ) :
    ProgressView :=
  match s.campaign_status user_id with
  | some st =>
    let percentage : ℚ :=
      if 0 < st.total then pyRound1 ((st.processed : ℚ) / (st.total : ℚ) * 100)
      else 0
    let eta : ℤ :=
      if 0 < st.processed ∧ st.status = .running then
        let elapsed := now - st.start_time
        let rate := (st.processed : ℚ) / elapsed
        let remaining :=
          if 0 < rate then ((st.total : ℚ) - (st.processed : ℚ)) / rate else 0
        pyRoundInt remaining
      else 0
    { status := some st.status, total := st.total, processed := st.processed,
      sent := st.sent, failed := st.failed, percentage := percentage, eta := eta,
      start_time := some st.start_time, delay := some st.delay,
      has_media := st.has_media }
  | none =>
    { status := none, total := 0, processed := 0, sent := 0, failed := 0,
      percentage := 0, eta := 0, start_time := none, delay := none,
      has_media := none }

/-- `CampaignService.stop_campaign(user_id)`: flips the status to `'stopped'`
whenever the tenant has any entry, regardless of its current state. -/
def stop_campaign (s : EngineState) (user_id : Nat) : OpResult × EngineState :=
  match s.campaign_status user_id with
  | some st =>
    ({ success := true, message := some ("Campaign stopped".toList), error := none },
     { s with campaign_status := setStatus s.campaign_status user_id { st with status := .stopped } })
  | none =>
    ({ success := false, message := none,
       error := some ("No active campaign found".toList) }, s)

/-- Result of the external part of one dispatcher iteration:
`noUser` — `User.get_by_id` returned `None` (nothing is sent or recorded);
`result ok` — the gateway was called and returned `{'success': ok}`;
`exn` — the user lookup or the gateway call raised, landing in the
`except` handler of `_background_worker`. -/
inductive SendOutcome
  | noUser
  | result (ok : Bool)
  | exn
deriving DecidableEq

/-- `"[Media: {n} files] "` prefix added to the logged message when media was
attached. -/
def mediaLogMark (n : Nat) : List Char :=
  "[Media: ".toList ++ Nat.toDigits 10 n ++ " files] ".toList

/-- Lines 212–254 of `_background_worker`: user lookup, gateway call and status
update for one dequeued task (the part after the stale-status check). -/
def processTask (s : EngineState) (task : Task) : SendOutcome → EngineState
  | .noUser => s
  | .exn =>
    -- `except` handler: count the task as failed/processed if the tenant still
    -- has an entry; note there is NO completion check on this path.
    match s.campaign_status task.user_id with
    | some st =>
      let st' : CampaignStatus :=
        { st with failed := st.failed + 1, processed := st.processed + 1 }
      { s with campaign_status := setStatus s.campaign_status task.user_id st' }
    | none => s
  | .result ok =>
    -- the gateway call happened (outside the lock), so the attempt is recorded
    -- whether or not the tenant still has a status entry
    let s1 := { s with send_attempts := s.send_attempts ++ [(task.user_id, task.phone)] }
    match s1.campaign_status task.user_id with
    | none => s1
    | some st =>
      if ok then
        let log_message :=
          if mediaTruthy task.media_files then
            mediaLogMark ((task.media_files.getD []).length) ++ task.message
          else task.message
        let base := { st with sent := st.sent + 1, processed := st.processed + 1 }
        let st' :=
          if base.total ≤ base.processed then { base with status := .completed } else base
        { s1 with
            campaign_status := setStatus s1.campaign_status task.user_id st'
            message_log := s1.message_log
              ++ [{ user_id := task.user_id, phone := task.phone,
                    message := log_message, status := "sent".toList }]
            contact_updates := s1.contact_updates
              ++ [(task.user_id, task.phone, "sent".toList)] }
      else
        let base := { st with failed := st.failed + 1, processed := st.processed + 1 }
        let st' :=
          if base.total ≤ base.processed then { base with status := .completed } else base
        { s1 with campaign_status := setStatus s1.campaign_status task.user_id st' }

/-- One iteration of the `while True` loop of `_background_worker`: dequeue the
next task (or do nothing on `queue.Empty`), drop it silently when its tenant has
a status entry that is not `'running'`, otherwise process it. -/
def worker_step (s : EngineState) (outcome : SendOutcome) : EngineState :=
  match s.message_queue with
  | [] => s
  | task :: rest =>
    let s1 := { s with message_queue := rest }
    match s1.campaign_status task.user_id with
    | some st => if st.status ≠ .running then s1 else processTask s1 task outcome
    | none => processTask s1 task outcome

/-! ### The step relation -/
/-- One operation of the interleaved execution: the three control operations
invoked from request handlers, the read-only progress query, and one dispatcher
iteration. -/
inductive Op
  | startC (user_id : Nat) (contacts : List Contact) (template : List Char)
      (delay : Nat) (now : ℚ)
  | startM (user_id : Nat) (contacts : List Contact) (template : List Char)
      (delay : Nat) (media : Option (List MediaFile)) (now : ℚ)
  | stopC (user_id : Nat)
  | progressQ (user_id : Nat) (now : ℚ)
  | step (outcome : SendOutcome)

/-- State effect of one operation.  `get_campaign_progress` only reads a copy
of the tenant's entry, so `progressQ` leaves the state unchanged. -/
def applyOp (s : EngineState) : Op → EngineState
  | .startC u c t d now => (start_campaign s u c t d now).2
  | .startM u c t d m now => (start_campaign_with_media s u c t d m now).2
  | .stopC u => (stop_campaign s u).2
  | .progressQ _ _ => s
  | .step outcome => worker_step s outcome

/-- Run a sequence of operations from the left. -/
def runSteps (s : EngineState) : List Op → EngineState
  | [] => s
  | op :: ops => runSteps (applyOp s op) ops

/-- Number of `start` operations (either variant) for tenant `u` in a
sequence. -/
def startCount (u : Nat) : List Op → Nat
  | [] => 0
  | op :: ops =>
    (match op with
     | .startC v _ _ _ _ => if v = u then 1 else 0
     | .startM v _ _ _ _ _ => if v = u then 1 else 0
     | _ => 0) + startCount u ops

/-- Number of queued tasks belonging to tenant `u`. -/
def tasksFor (u : Nat) (q : List Task) : Nat :=
  (q.filter (fun tk => tk.user_id == u)).length

/-- Trace for the C5 counterexample: one single-contact campaign is started and
runs to completion. -/
def c5Trace : List Op :=
  [.startC 0 [⟨"A".toList, none⟩] ("m".toList) 2 0, .step (.result true)]

/-- The status entry reached by `c5Trace`. -/
def c5Completed : CampaignStatus :=
  { status := .completed, total := 1, processed := 1, sent := 1, failed := 0,
    start_time := 0, delay := 2, has_media := none }

/-! ### Claim C6: `get_campaign_progress` -/
/-- The zero-valued reply of `get_campaign_progress` for an unknown tenant. -/
def emptyProgress : ProgressView :=
  { status := none, total := 0, processed := 0, sent := 0, failed := 0,
    percentage := 0, eta := 0, start_time := none, delay := none, has_media := none }

/-- A concrete engine state for the C6 witness: one RUNNING campaign, four
contacts, one processed, started at time 0. -/
def c6State : EngineState :=
  { campaign_status := fun v =>
      if v = 0 then
        some { status := .running, total := 4, processed := 1, sent := 1, failed := 0,
               start_time := 0, delay := 2, has_media := none }
      else none
    message_queue := []
    message_log := []
    contact_updates := []
    send_attempts := [] }

/-- Trace for the C2 counterexample: tenant 0 starts a campaign for phone "A",
restarts with phone "B" while task "A" is still queued, then the dispatcher
processes one task with a successful gateway call. -/
def c2Trace : List Op :=
  [.startC 0 [⟨"A".toList, none⟩] ("m".toList) 0 0,
   .startC 0 [⟨"B".toList, none⟩] ("m".toList) 0 1,
   .step (.result true)]

/-- The status entry reached by `c2Trace`. -/
def c2Final : CampaignStatus :=
  { status := .completed, total := 1, processed := 1, sent := 1, failed := 0,
    start_time := 1, delay := 0, has_media := none }

/-- A stopped single-entry state for the C2 witness. -/
def c2SkipState : EngineState :=
  { campaign_status := fun v =>
      if v = 0 then
        some { status := .stopped, total := 3, processed := 1, sent := 1, failed := 0,
               start_time := 0, delay := 2, has_media := none }
      else none
    message_queue := [{ user_id := 0, phone := "A".toList, message := "m".toList,
                        media_files := none, delay := 2 }]
    message_log := []
    contact_updates := []
    send_attempts := [] }

/-! ### Claim C3: completion transitions -/
/-- Trace for the C3 counterexample: a one-contact campaign whose single task
raises during processing. -/
def c3Trace : List Op :=
  [.startC 0 [⟨"A".toList, none⟩] ("m".toList) 0 0, .step .exn]

/-- The status entry reached by `c3Trace`. -/
def c3Final : CampaignStatus :=
  { status := .running, total := 1, processed := 1, sent := 0, failed := 1,
    start_time := 0, delay := 0, has_media := none }

/-- A RUNNING one-task state for the C3 witness. -/
def c3StepState : EngineState :=
  { campaign_status := fun v =>
      if v = 0 then
        some { status := .running, total := 1, processed := 0, sent := 0, failed := 0,
               start_time := 0, delay := 2, has_media := none }
      else none
    message_queue := [{ user_id := 0, phone := "A".toList, message := "m".toList,
                        media_files := none, delay := 2 }]
    message_log := []
    contact_updates := []
    send_attempts := [] }

/-! ### Claim C1: counter invariants -/
/-- Trace for the C1 counterexample: a two-contact campaign is overwritten by a
one-contact campaign while both its tasks are still queued; the two stale tasks
are then processed, both raising.  Each lands in the `except` handler, which
counts it against the new campaign without any completion check. -/
def c1Trace : List Op :=
  [.startC 0 [⟨"A".toList, none⟩, ⟨"B".toList, none⟩] ("m".toList) 0 0,
   .startC 0 [⟨"C".toList, none⟩] ("m".toList) 0 1,
   .step .exn, .step .exn]

/-- The status entry reached by `c1Trace`. -/
def c1Final : CampaignStatus :=
  { status := .running, total := 1, processed := 2, sent := 0, failed := 2,
    start_time := 1, delay := 0, has_media := none }

/-- Trace for the C8 counterexample: two contacts, the first send returns
non-success. -/
def c8Trace : List Op :=
  [.startC 0 [⟨"A".toList, none⟩, ⟨"B".toList, none⟩] ("m".toList) 0 0,
   .step (.result false)]

/-- The status entry reached by `c8Trace`. -/
def c8Final : CampaignStatus :=
  { status := .running, total := 2, processed := 1, sent := 0, failed := 1,
    start_time := 0, delay := 0, has_media := none }

/-- A RUNNING two-task state for the C8 witness. -/
def c8StepState : EngineState :=
  { campaign_status := fun v =>
      if v = 0 then
        some { status := .running, total := 2, processed := 0, sent := 0, failed := 0,
               start_time := 0, delay := 2, has_media := none }
      else none
    message_queue := [{ user_id := 0, phone := "A".toList, message := "m".toList,
                        media_files := none, delay := 2 },
                      { user_id := 0, phone := "B".toList, message := "m".toList,
                        media_files := none, delay := 2 }]
    message_log := []
    contact_updates := []
    send_attempts := [] }

/-! ### Invariant machinery for claim C1 -/
/-- `processed = sent + failed` for every tracked tenant. -/
def eqTable (tbl : Nat → Option CampaignStatus) : Prop :=
  ∀ u st, tbl u = some st → st.processed = st.sent + st.failed

/-! ### The queue-bound invariant -/
/-- For table `tbl` and queue `q`: every tracked tenant's `processed` plus its
still-queued tasks is at most `total`, and an untracked tenant has no queued
tasks. -/
def boundPair (tbl : Nat → Option CampaignStatus) (q : List Task) : Prop :=
  ∀ u, (tbl u = none → tasksFor u q = 0) ∧
       (∀ st, tbl u = some st → st.processed + tasksFor u q ≤ st.total)

/-- `boundPair` for the engine state.  This holds in every reachable state as
long as no tenant is started twice (a restart floods the new campaign with the
old campaign's stale tasks, see `C1_counterexample`). -/
def boundInv (s : EngineState) : Prop :=
  boundPair s.campaign_status s.message_queue

/-- Tenant `u` has left a mark on the engine: a status entry or queued
tasks. -/
def hasTrace (s : EngineState) (u : Nat) : Prop :=
  s.campaign_status u ≠ none ∨ tasksFor u s.message_queue ≠ 0

/-- Trace for the C1 witness: a single one-contact campaign start. -/
def c1SingleTrace : List Op :=
  [.startC 0 [⟨"A".toList, none⟩] ("m".toList) 2 0]

/-- The status entry reached by `c1SingleTrace`. -/
def c1SingleFinal : CampaignStatus :=
  { status := .running, total := 1, processed := 0, sent := 0, failed := 0,
    start_time := 0, delay := 2, has_media := none }

/-! ### Well-formed template decompositions -/
/-- A well-formed segment of a template for one substitution pass with token
body `q`: a brace-free literal, the token `{q}` itself, or some other complete
brace token `{b}` with `b ≠ q`. -/
inductive GPiece
  | glit (s : List Char)
  | gtok
  | gother (b : List Char)

/-- No brace characters occur in `s`. -/
def braceFree (s : List Char) : Prop := '{' ∉ s ∧ '}' ∉ s

instance (s : List Char) : Decidable (braceFree s) :=
  inferInstanceAs (Decidable ('{' ∉ s ∧ '}' ∉ s))

def GPiece.flat (q : List Char) : GPiece → List Char
  | .glit s => s
  | .gtok => '{' :: (q ++ ['}'])
  | .gother b => '{' :: (b ++ ['}'])

def GPiece.subst (rep : List Char) : GPiece → List Char
  | .glit s => s
  | .gtok => rep
  | .gother b => '{' :: (b ++ ['}'])

def GPiece.wf (q : List Char) : GPiece → Prop
  | .glit s => braceFree s
  | .gtok => True
  | .gother b => braceFree b ∧ b ≠ q

/-! ### Claim C7: placeholder substitution -/
/-- A template segment: a brace-free literal, the `{name}` token, the `{phone}`
token, or some other complete brace token `{b}`. -/
inductive TemplatePiece
  | lit (s : List Char)
  | nameTok
  | phoneTok
  | otherTok (b : List Char)

def TemplatePiece.flat : TemplatePiece → List Char
  | .lit s => s
  | .nameTok => "{name}".toList
  | .phoneTok => "{phone}".toList
  | .otherTok b => '{' :: (b ++ ['}'])

/-- The simultaneous substitution the claim describes: each `{name}` becomes
the (defaulted) name, each `{phone}` the phone, and any other token is kept
verbatim. -/
def TemplatePiece.subst (n p : List Char) : TemplatePiece → List Char
  | .lit s => s
  | .nameTok => n
  | .phoneTok => p
  | .otherTok b => '{' :: (b ++ ['}'])

def TemplatePiece.wf : TemplatePiece → Prop
  | .lit s => braceFree s
  | .nameTok => True
  | .phoneTok => True
  | .otherTok b => braceFree b ∧ b ≠ "name".toList ∧ b ≠ "phone".toList

instance : ∀ pc : TemplatePiece, Decidable pc.wf
  | .lit s => inferInstanceAs (Decidable (braceFree s))
  | .nameTok => inferInstanceAs (Decidable True)
  | .phoneTok => inferInstanceAs (Decidable True)
  | .otherTok b =>
    inferInstanceAs (Decidable (braceFree b ∧ b ≠ "name".toList ∧ b ≠ "phone".toList))

/-- View of a segment for the first pass (`{name}` replacement). -/
def pieceToName : TemplatePiece → GPiece
  | .lit s => .glit s
  | .nameTok => .gtok
  | .phoneTok => .gother ("phone".toList)
  | .otherTok b => .gother b

/-- View of a segment for the second pass (`{phone}` replacement), after the
name value `n` has been substituted. -/
def pieceToPhone (n : List Char) : TemplatePiece → GPiece
  | .lit s => .glit s
  | .nameTok => .glit n
  | .phoneTok => .gtok
  | .otherTok b => .gother b

/-- Modelled from the claim's words: one simultaneous left-to-right pass over
the template, substituting each `{name}` and `{phone}` occurrence and copying
every other character (hence every other brace token) verbatim. -/
def specSubstAux (n p : List Char) : List Char → List Char
  | '{' :: 'n' :: 'a' :: 'm' :: 'e' :: '}' :: rest => n ++ specSubstAux n p rest
  | '{' :: 'p' :: 'h' :: 'o' :: 'n' :: 'e' :: '}' :: rest => p ++ specSubstAux n p rest
  | c :: rest => c :: specSubstAux n p rest
  | [] => []

/-- The substitution semantics the claim describes, with the same
missing/empty-name default as the code. -/
def specPersonalize (template name phone : List Char) : List Char :=
  specSubstAux (defaultName name) phone template

/-- The segments of the template `"Hi {name}, your number is {phone}"`. -/
def c7Pieces : List TemplatePiece :=
  [.lit ("Hi ".toList), .nameTok, .lit (", your number is ".toList), .phoneTok]

/-! ## Theorems -/

/-! ### Basic lemmas about the status dictionary -/
theorem setStatus_self (tbl : Nat → Option CampaignStatus) (u : Nat) (st : CampaignStatus) :
    setStatus tbl u st u = some st := by
  simp [setStatus]

theorem setStatus_ne (tbl : Nat → Option CampaignStatus) (u : Nat) (st : CampaignStatus)
    (v : Nat) (h : v ≠ u) : setStatus tbl u st v = tbl v := by
  simp [setStatus, h]

/-! ### Rounding helper -/
theorem pyRoundInt_intCast (n : ℤ) : pyRoundInt (n : ℚ) = n := by
  unfold pyRoundInt
  norm_num

/-! ### Claim C4: validation in `start_campaign_with_media` -/
/-- C4: `start_campaign_with_media` rejects an empty contact list, and an empty
template with falsy (absent or empty) media, with the corresponding error and a
completely unchanged engine state (no status entry, nothing enqueued); with a
non-empty contact list, an empty template and truthy media it succeeds. -/
theorem C4_start_validation (s : EngineState) (u : Nat) (contacts : List Contact)
    (tmpl : List Char) (d : Nat) (media : Option (List MediaFile)) (now : ℚ) :
    (contacts = [] →
       start_campaign_with_media s u contacts tmpl d media now =
         ({ success := false, message := none,
            error := some ("No contacts provided".toList) }, s)) ∧
    (contacts ≠ [] → tmpl = [] → mediaTruthy media = false →
       start_campaign_with_media s u contacts tmpl d media now =
         ({ success := false, message := none,
            error := some ("Either message or media files are required".toList) }, s)) ∧
    (contacts ≠ [] → tmpl = [] → mediaTruthy media = true →
       (start_campaign_with_media s u contacts tmpl d media now).1.success = true) := by
  refine ⟨fun h1 => ?_, fun h1 h2 h3 => ?_, fun h1 h2 h3 => ?_⟩
  · simp [start_campaign_with_media, h1]
  · simp [start_campaign_with_media, h1, h2, h3]
  · simp [start_campaign_with_media, h1, h2, h3]

/-- Witness for C4 at concrete inputs: one contact, empty template, one media
file succeeds; the two rejections fire on the empty-input shapes. -/
theorem C4_start_validation_witness :
    (start_campaign_with_media initState 0 [] ("m".toList) 2 none 0 =
      ({ success := false, message := none,
         error := some ("No contacts provided".toList) }, initState)) ∧
    (start_campaign_with_media initState 0 [⟨"A".toList, none⟩] [] 2 none 0 =
      ({ success := false, message := none,
         error := some ("Either message or media files are required".toList) }, initState)) ∧
    (start_campaign_with_media initState 0 [⟨"A".toList, none⟩] [] 2 (some [7]) 0).1.success
      = true := by
  refine ⟨?_, ?_, ?_⟩
  · exact (C4_start_validation initState 0 [] ("m".toList) 2 none 0).1 rfl
  · exact (C4_start_validation initState 0 [⟨"A".toList, none⟩] [] 2 none 0).2.1
      (by decide) rfl (by decide)
  · exact (C4_start_validation initState 0 [⟨"A".toList, none⟩] [] 2 (some [7]) 0).2.2
      (by decide) rfl (by decide)

/-! ### Claim C5: `stop_campaign` -/
/-- C5 (amended): `stop_campaign` succeeds and flips the tenant's state to
STOPPED whenever any status entry exists for the tenant — RUNNING, STOPPED or
COMPLETED alike — and fails with the no-active-campaign error, leaving the
state unchanged, exactly when no entry exists.  (The source checks only
`user_id in self.campaign_status`, not whether the entry is active.) -/
theorem C5_stop_spec (s : EngineState) (u : Nat) :
    (∀ st, s.campaign_status u = some st →
       stop_campaign s u =
         ({ success := true, message := some ("Campaign stopped".toList), error := none },
          { s with campaign_status :=
              setStatus s.campaign_status u ({ st with status := .stopped }) })) ∧
    (s.campaign_status u = none →
       stop_campaign s u =
         ({ success := false, message := none,
            error := some ("No active campaign found".toList) }, s)) := by
  constructor
  · intro st h
    simp [stop_campaign, h]
  · intro h
    simp [stop_campaign, h]

/-- C5 counterexample: after the campaign COMPLETED, the claim says `stop` must
fail with `NoActiveCampaign` and change nothing; the code instead reports
success and overwrites the COMPLETED state with STOPPED. -/
theorem C5_counterexample :
    (runSteps initState c5Trace).campaign_status 0 = some c5Completed ∧
    c5Completed.status = .completed ∧
    (stop_campaign (runSteps initState c5Trace) 0).1 =
      { success := true, message := some ("Campaign stopped".toList), error := none } ∧
    (stop_campaign (runSteps initState c5Trace) 0).2.campaign_status 0 =
      some { status := .stopped, total := 1, processed := 1, sent := 1, failed := 0,
             start_time := 0, delay := 2, has_media := none } := by
  refine ⟨by decide, by decide, by decide, by decide⟩

/-- Witness for C5 at a concrete state: stopping the completed campaign of
`c5Trace` succeeds and rewrites the entry to STOPPED; stopping a tenant with no
entry fails. -/
theorem C5_stop_spec_witness :
    (stop_campaign (runSteps initState c5Trace) 0 =
      ({ success := true, message := some ("Campaign stopped".toList), error := none },
       { runSteps initState c5Trace with
          campaign_status := setStatus (runSteps initState c5Trace).campaign_status 0 ({ c5Completed with status := .stopped }) })) ∧
    (stop_campaign initState 5 =
      ({ success := false, message := none,
         error := some ("No active campaign found".toList) }, initState)) := by
  constructor
  · exact (C5_stop_spec (runSteps initState c5Trace) 0).1 c5Completed (by decide)
  · exact (C5_stop_spec initState 5).2 rfl

/-- C6: the progress query returns, for an unknown tenant, the zero-valued
view with state `'none'`; for a tracked tenant it copies the stored counters
and state and derives `percentage = round(processed/total*100, 1)` when
`total > 0` (else 0) and, as long as the clock has advanced past `start_time`,
`eta = round((total-processed)/(processed/elapsed))` when the campaign is
RUNNING with `processed > 0` (else 0).  The query never mutates the engine
state: the view is a copy (`applyOp` for a progress query is the identity). -/
theorem C6_progress_spec (s : EngineState) (u : Nat) (now : ℚ) :
    (applyOp s (.progressQ u now) = s) ∧
    (s.campaign_status u = none → get_campaign_progress s u now = emptyProgress) ∧
    (∀ st, s.campaign_status u = some st →
       ((get_campaign_progress s u now).status = some st.status ∧
        (get_campaign_progress s u now).total = st.total ∧
        (get_campaign_progress s u now).processed = st.processed ∧
        (get_campaign_progress s u now).sent = st.sent ∧
        (get_campaign_progress s u now).failed = st.failed) ∧
       ((get_campaign_progress s u now).percentage =
          if 0 < st.total then pyRound1 ((st.processed : ℚ) / (st.total : ℚ) * 100)
          else 0) ∧
       (st.start_time < now →
          (get_campaign_progress s u now).eta =
            if st.status = .running ∧ 0 < st.processed then
              pyRoundInt (((st.total : ℚ) - (st.processed : ℚ)) /
                ((st.processed : ℚ) / (now - st.start_time)))
            else 0)) := by
  refine ⟨rfl, fun h => ?_, fun st h => ⟨?_, ?_, fun helapsed => ?_⟩⟩
  · simp [get_campaign_progress, h, emptyProgress]
  · simp [get_campaign_progress, h]
  · simp [get_campaign_progress, h]
  · have hrate : 0 < st.processed → 0 < (st.processed : ℚ) / (now - st.start_time) := by
      intro hp
      have h1 : (0:ℚ) < (st.processed : ℚ) := by exact_mod_cast hp
      have h2 : (0:ℚ) < now - st.start_time := by linarith
      positivity
    by_cases hc : st.status = CState.running ∧ 0 < st.processed
    · have := hrate hc.2
      simp only [get_campaign_progress, h]
      rw [if_pos ⟨hc.2, hc.1⟩, if_pos hc, if_pos this]
    · simp only [get_campaign_progress, h]
      rw [if_neg (fun hcon => hc ⟨hcon.2, hcon.1⟩), if_neg hc]

/-- Witness for C6: at time 2 the tracked tenant reports 25.0 percent and an
eta of 6 seconds (1 of 4 processed in 2 seconds leaves 3 at rate 1/2), and an
unknown tenant gets the zero view. -/
theorem C6_progress_spec_witness :
    (get_campaign_progress c6State 0 2).percentage = 25 ∧
    (get_campaign_progress c6State 0 2).eta = 6 ∧
    get_campaign_progress c6State 7 2 = emptyProgress := by
  have h := C6_progress_spec c6State 0 2
  have hsome : c6State.campaign_status 0 =
      some { status := .running, total := 4, processed := 1, sent := 1, failed := 0,
             start_time := 0, delay := 2, has_media := none } := rfl
  have h2 := h.2.2 _ hsome
  refine ⟨?_, ?_, (C6_progress_spec c6State 7 2).2.1 rfl⟩
  · rw [h2.2.1]
    rw [if_pos (by norm_num)]
    have e1 : ((1 : Nat) : ℚ) / ((4 : Nat) : ℚ) * 100 * 10 = ((250 : ℤ) : ℚ) := by
      norm_num
    rw [pyRound1, e1, pyRoundInt_intCast]
    norm_num
  · rw [h2.2.2 (by norm_num)]
    rw [if_pos ⟨rfl, by norm_num⟩]
    have e2 : (((4 : Nat) : ℚ) - ((1 : Nat) : ℚ)) / (((1 : Nat) : ℚ) / (2 - 0)) =
        ((6 : ℤ) : ℚ) := by norm_num
    rw [e2, pyRoundInt_intCast]

/-! ### Claim C2: stale queued tasks -/
/-- C2 (amended): a dequeued task is discarded — nothing sent, no counter, log
or contact-row change — exactly in the source's skip case: its tenant has a
status entry whose state is not RUNNING.  (A stale task of an overwritten
campaign whose tenant is RUNNING again is NOT discarded, see
`C2_counterexample`.) -/
theorem C2_stale_skip (s : EngineState) (task : Task) (rest : List Task)
    (st : CampaignStatus) (o : SendOutcome)
    (hq : s.message_queue = task :: rest)
    (hst : s.campaign_status task.user_id = some st)
    (hns : st.status ≠ .running) :
    worker_step s o = { s with message_queue := rest } := by
  simp [worker_step, hq, hst, hns]

/-- C2 counterexample: the dispatched task is the stale one of the overwritten
campaign (recipient "A" — the new campaign targets only "B"), yet it is sent
(gateway call and log row for "A") and it increments the new campaign's
`processed`/`sent`, driving it to COMPLETED although its own contact "B" was
never sent.  The claim says stale tasks are discarded without being sent and
without touching the new campaign's counters. -/
theorem C2_counterexample :
    (runSteps initState c2Trace).campaign_status 0 = some c2Final ∧
    c2Final.processed = 1 ∧ c2Final.sent = 1 ∧
    (runSteps initState c2Trace).send_attempts = [(0, "A".toList)] ∧
    (runSteps initState c2Trace).message_log =
      [{ user_id := 0, phone := "A".toList, message := "m".toList,
         status := "sent".toList }] := by
  refine ⟨by decide, by decide, by decide, by decide, by decide⟩

/-- Witness for C2: on the stopped tenant the dispatcher discards the queued
task and changes nothing else, even though the gateway would have reported
success. -/
theorem C2_stale_skip_witness :
    worker_step c2SkipState (.result true) = { c2SkipState with message_queue := [] } := by
  exact C2_stale_skip c2SkipState
    { user_id := 0, phone := "A".toList, message := "m".toList,
      media_files := none, delay := 2 } []
    { status := .stopped, total := 3, processed := 1, sent := 1, failed := 0,
      start_time := 0, delay := 2, has_media := none }
    (.result true) rfl (by decide) (by decide)

/-- C3 counterexample: the dispatcher step lands in the `except` handler, which
increments `processed` to `total` while the state is RUNNING but performs no
completion check — the state stays RUNNING instead of becoming COMPLETED in
that step, as the claim requires. -/
theorem C3_counterexample :
    (runSteps initState c3Trace).campaign_status 0 = some c3Final ∧
    c3Final.processed = c3Final.total ∧
    c3Final.status = .running ∧
    c3Final.status ≠ .completed := by
  refine ⟨by decide, by decide, by decide, by decide⟩

/-! ### Frame lemmas for the dispatcher step -/
theorem processTask_status_ne (s : EngineState) (task : Task) (o : SendOutcome)
    (t : Nat) (h : t ≠ task.user_id) :
    (processTask s task o).campaign_status t = s.campaign_status t := by
  cases o with
  | noUser => rfl
  | exn =>
    cases hcs : s.campaign_status task.user_id with
    | none => simp [processTask, hcs]
    | some stc => simp [processTask, hcs, setStatus_ne _ _ _ _ h]
  | result ok =>
    cases hcs : s.campaign_status task.user_id with
    | none => simp [processTask, hcs]
    | some stc =>
      cases ok <;> simp [processTask, hcs, setStatus_ne _ _ _ _ h]

theorem worker_step_running (s : EngineState) (task : Task) (rest : List Task)
    (st : CampaignStatus) (o : SendOutcome)
    (hq : s.message_queue = task :: rest)
    (hst : s.campaign_status task.user_id = some st)
    (hrun : st.status = .running) :
    worker_step s o = processTask { s with message_queue := rest } task o := by
  simp [worker_step, hq, hst, hrun]

/-- C3 (amended): (1) when a dispatcher step processes a task of a RUNNING
campaign and the gateway call returns normally (success or failure alike),
reaching `processed + 1 ≥ total` flips the state to COMPLETED in that very
step; (2) a step whose processing raises lands in the `except` handler, which
increments `failed` and `processed` but never flips the state — so a RUNNING
campaign can reach `processed = total` and stay RUNNING (see
`C3_counterexample`); (3) a STOPPED campaign never transitions to COMPLETED
under any operation. -/
theorem C3_completion_spec :
    (∀ (s : EngineState) (task : Task) (rest : List Task) (st : CampaignStatus) (ok : Bool),
       s.message_queue = task :: rest →
       s.campaign_status task.user_id = some st →
       st.status = .running → st.total ≤ st.processed + 1 →
       ∃ st', (worker_step s (.result ok)).campaign_status task.user_id = some st' ∧
         st'.status = .completed ∧ st'.processed = st.processed + 1) ∧
    (∀ (s : EngineState) (task : Task) (rest : List Task) (st : CampaignStatus),
       s.message_queue = task :: rest →
       s.campaign_status task.user_id = some st →
       st.status = .running →
       (worker_step s .exn).campaign_status task.user_id =
         some { st with failed := st.failed + 1, processed := st.processed + 1 }) ∧
    (∀ (s : EngineState) (op : Op) (t : Nat) (st st' : CampaignStatus),
       s.campaign_status t = some st → st.status = .stopped →
       (applyOp s op).campaign_status t = some st' → st'.status ≠ .completed) := by
  refine ⟨?_, ?_, ?_⟩
  · intro s task rest st ok hq hst hrun htot
    rw [worker_step_running s task rest st _ hq hst hrun]
    cases ok with
    | true =>
      refine ⟨{ st with sent := st.sent + 1, processed := st.processed + 1, status := .completed }, ?_, rfl, rfl⟩
      simp [processTask, hst, setStatus_self, htot]
    | false =>
      refine ⟨{ st with failed := st.failed + 1, processed := st.processed + 1, status := .completed }, ?_, rfl, rfl⟩
      simp [processTask, hst, setStatus_self, htot]
  · intro s task rest st hq hst hrun
    rw [worker_step_running s task rest st _ hq hst hrun]
    simp [processTask, hst, setStatus_self]
  · intro s op t st st' h1 h2 h3
    cases op with
    | startC u c tm d now =>
      simp only [applyOp] at h3
      unfold start_campaign at h3
      split at h3
      · rw [h1] at h3
        cases h3
        simp [h2]
      · split at h3
        · rw [h1] at h3
          cases h3
          simp [h2]
        · simp only at h3
          by_cases hu : t = u
          · subst hu
            rw [setStatus_self] at h3
            cases h3
            simp
          · rw [setStatus_ne _ _ _ _ hu, h1] at h3
            cases h3
            simp [h2]
    | startM u c tm d m now =>
      simp only [applyOp] at h3
      unfold start_campaign_with_media at h3
      split at h3
      · rw [h1] at h3
        cases h3
        simp [h2]
      · split at h3
        · rw [h1] at h3
          cases h3
          simp [h2]
        · simp only at h3
          by_cases hu : t = u
          · subst hu
            rw [setStatus_self] at h3
            cases h3
            simp
          · rw [setStatus_ne _ _ _ _ hu, h1] at h3
            cases h3
            simp [h2]
    | stopC u =>
      simp only [applyOp] at h3
      unfold stop_campaign at h3
      cases hu : s.campaign_status u with
      | none =>
        rw [hu] at h3
        simp only at h3
        rw [h1] at h3
        cases h3
        simp [h2]
      | some stu =>
        rw [hu] at h3
        simp only at h3
        by_cases htu : t = u
        · subst htu
          rw [setStatus_self] at h3
          cases h3
          simp
        · rw [setStatus_ne _ _ _ _ htu, h1] at h3
          cases h3
          simp [h2]
    | progressQ u now =>
      simp only [applyOp] at h3
      rw [h1] at h3
      cases h3
      simp [h2]
    | step o =>
      simp only [applyOp] at h3
      unfold worker_step at h3
      cases hqq : s.message_queue with
      | nil =>
        rw [hqq] at h3
        simp only at h3
        rw [h1] at h3
        cases h3
        simp [h2]
      | cons task rest =>
        rw [hqq] at h3
        simp only at h3
        by_cases htu : t = task.user_id
        · subst htu
          rw [h1] at h3
          simp only [h2] at h3
          simp only [reduceCtorEq, ne_eq, not_false_iff, if_true, ite_true] at h3
          rw [h1] at h3
          cases h3
          simp [h2]
        · have hframe := processTask_status_ne { s with message_queue := rest } task o t htu
          cases hcs : s.campaign_status task.user_id with
          | none =>
            rw [hcs] at h3
            simp only at h3
            rw [hframe] at h3
            simp only at h3
            rw [h1] at h3
            cases h3
            simp [h2]
          | some stq =>
            rw [hcs] at h3
            simp only at h3
            by_cases hrq : stq.status = CState.running
            · rw [if_neg (by simp [hrq])] at h3
              rw [hframe] at h3
              simp only at h3
              rw [h1] at h3
              cases h3
              simp [h2]
            · rw [if_pos (by simp [hrq])] at h3
              simp only at h3
              rw [h1] at h3
              cases h3
              simp [h2]

/-- Witness for C3: a successful final send flips the one-contact campaign to
COMPLETED in that step. -/
theorem C3_completion_spec_witness :
    ∃ st', (worker_step c3StepState (.result true)).campaign_status 0 = some st' ∧
      st'.status = .completed ∧ st'.processed = 0 + 1 := by
  exact C3_completion_spec.1 c3StepState
    { user_id := 0, phone := "A".toList, message := "m".toList,
      media_files := none, delay := 2 } []
    { status := .running, total := 1, processed := 0, sent := 0, failed := 0,
      start_time := 0, delay := 2, has_media := none }
    true rfl (by decide) (by decide) (by decide)

/-- C1 counterexample: in the state reached by `c1Trace` the tenant's counters
show `processed = 2 > 1 = total`, refuting `processed ≤ total` at a reachable
state (the `processed = sent + failed` half does hold, see `C1_counters`). -/
theorem C1_counterexample :
    (runSteps initState c1Trace).campaign_status 0 = some c1Final ∧
    c1Final.total < c1Final.processed := by
  refine ⟨by decide, by decide⟩

/-! ### Claim C8: per-task failure handling -/
/-- C8 (amended): when the task of a RUNNING campaign fails — the gateway
returns non-success, or the processing raises — the dispatcher increments
`failed` and `processed` and moves on to the next task (the queue advances and
the loop continues), but it writes NO message-log entry and no contact update
(the source logs successful sends only; failures are only printed).  A
non-success result still performs the completion check, so only a final failed
task can change the state (to COMPLETED); an exception never changes the
state. -/
theorem C8_failure_spec (s : EngineState) (task : Task) (rest : List Task)
    (st : CampaignStatus)
    (hq : s.message_queue = task :: rest)
    (hst : s.campaign_status task.user_id = some st)
    (hrun : st.status = .running) :
    ((worker_step s (.result false)).campaign_status task.user_id =
       some { st with failed := st.failed + 1, processed := st.processed + 1, status := if st.total ≤ st.processed + 1 then .completed else st.status } ∧
     (worker_step s (.result false)).message_log = s.message_log ∧
     (worker_step s (.result false)).contact_updates = s.contact_updates ∧
     (worker_step s (.result false)).message_queue = rest) ∧
    ((worker_step s .exn).campaign_status task.user_id =
       some { st with failed := st.failed + 1, processed := st.processed + 1 } ∧
     (worker_step s .exn).message_log = s.message_log ∧
     (worker_step s .exn).contact_updates = s.contact_updates ∧
     (worker_step s .exn).message_queue = rest) := by
  rw [worker_step_running s task rest st (.result false) hq hst hrun,
    worker_step_running s task rest st .exn hq hst hrun]
  refine ⟨⟨?_, ?_, ?_, ?_⟩, ?_, ?_, ?_, ?_⟩
  · by_cases hc : st.total ≤ st.processed + 1
    · simp [processTask, hst, setStatus_self, hc]
    · simp [processTask, hst, setStatus_self, hc]
  · simp [processTask, hst]
  · simp [processTask, hst]
  · simp [processTask, hst]
  · simp [processTask, hst, setStatus_self]
  · simp [processTask, hst]
  · simp [processTask, hst]
  · simp [processTask, hst]

/-- C8 counterexample: the failed send is counted (`failed = processed = 1`)
and the campaign keeps RUNNING, but — against the claim — no message-log entry
is appended for it: the log is still empty (the gateway call itself did
happen). -/
theorem C8_counterexample :
    (runSteps initState c8Trace).campaign_status 0 = some c8Final ∧
    c8Final.failed = 1 ∧ c8Final.processed = 1 ∧ c8Final.status = .running ∧
    (runSteps initState c8Trace).message_log = [] ∧
    (runSteps initState c8Trace).send_attempts = [(0, "A".toList)] := by
  refine ⟨by decide, by decide, by decide, by decide, by decide, by decide⟩

/-- Witness for C8 at a concrete state: the non-final failed task is counted,
nothing is logged, the queue advances, and the state stays RUNNING. -/
theorem C8_failure_spec_witness :
    (worker_step c8StepState (.result false)).campaign_status 0 =
      some { status := if (2:Nat) ≤ 0 + 1 then .completed else .running, total := 2, processed := 0 + 1, sent := 0, failed := 0 + 1, start_time := 0, delay := 2, has_media := none } ∧
    (worker_step c8StepState (.result false)).message_log = [] ∧
    (worker_step c8StepState (.result false)).contact_updates = [] ∧
    (worker_step c8StepState (.result false)).message_queue =
      [{ user_id := 0, phone := "B".toList, message := "m".toList,
         media_files := none, delay := 2 }] := by
  exact (C8_failure_spec c8StepState
    { user_id := 0, phone := "A".toList, message := "m".toList,
      media_files := none, delay := 2 }
    [{ user_id := 0, phone := "B".toList, message := "m".toList,
       media_files := none, delay := 2 }]
    { status := .running, total := 2, processed := 0, sent := 0, failed := 0,
      start_time := 0, delay := 2, has_media := none }
    rfl (by decide) (by decide)).1

/-! ### Claim C10: missing tenant user -/
theorem noUser_frame_step (s : EngineState) :
    (worker_step s .noUser).campaign_status = s.campaign_status ∧
    (worker_step s .noUser).message_log = s.message_log ∧
    (worker_step s .noUser).send_attempts = s.send_attempts ∧
    (worker_step s .noUser).contact_updates = s.contact_updates := by
  unfold worker_step
  split
  · exact ⟨rfl, rfl, rfl, rfl⟩
  · dsimp only
    split
    · split
      · exact ⟨rfl, rfl, rfl, rfl⟩
      · exact ⟨rfl, rfl, rfl, rfl⟩
    · exact ⟨rfl, rfl, rfl, rfl⟩

/-- C10: when `User.get_by_id` returns `None` for the dequeued task's tenant,
the dispatcher discards the task entirely: no gateway call is attempted, no
counter of any status entry changes, no log row and no contact update is
written.  Consequently, over any number of such dispatcher iterations the
status table is untouched, and a RUNNING campaign with `processed < total`
remains RUNNING with `processed < total` — it never reaches COMPLETED. -/
theorem C10_missing_user (n : Nat) (s : EngineState) :
    ((runSteps s (List.replicate n (.step .noUser))).campaign_status = s.campaign_status ∧
     (runSteps s (List.replicate n (.step .noUser))).message_log = s.message_log ∧
     (runSteps s (List.replicate n (.step .noUser))).send_attempts = s.send_attempts ∧
     (runSteps s (List.replicate n (.step .noUser))).contact_updates = s.contact_updates) ∧
    (∀ t st, s.campaign_status t = some st → st.status = .running →
       st.processed < st.total →
       ∃ st', (runSteps s (List.replicate n (.step .noUser))).campaign_status t = some st' ∧
         st'.status = .running ∧ st'.status ≠ .completed ∧ st'.processed < st'.total) := by
  induction n generalizing s with
  | zero =>
    refine ⟨⟨rfl, rfl, rfl, rfl⟩, fun t st h hr hp => ⟨st, h, hr, ?_, hp⟩⟩
    rw [hr]
    simp
  | succ n ih =>
    have hrep : List.replicate (n + 1) (Op.step SendOutcome.noUser) =
        Op.step SendOutcome.noUser :: List.replicate n (Op.step SendOutcome.noUser) := rfl
    have hframe := noUser_frame_step s
    have ihs := ih (worker_step s .noUser)
    constructor
    · refine ⟨?_, ?_, ?_, ?_⟩
      · rw [hrep]
        show (runSteps (applyOp s (.step .noUser)) (List.replicate n (.step .noUser))).campaign_status = _
        rw [show applyOp s (.step .noUser) = worker_step s .noUser from rfl]
        rw [ihs.1.1, hframe.1]
      · rw [hrep]
        show (runSteps (applyOp s (.step .noUser)) (List.replicate n (.step .noUser))).message_log = _
        rw [show applyOp s (.step .noUser) = worker_step s .noUser from rfl]
        rw [ihs.1.2.1, hframe.2.1]
      · rw [hrep]
        show (runSteps (applyOp s (.step .noUser)) (List.replicate n (.step .noUser))).send_attempts = _
        rw [show applyOp s (.step .noUser) = worker_step s .noUser from rfl]
        rw [ihs.1.2.2.1, hframe.2.2.1]
      · rw [hrep]
        show (runSteps (applyOp s (.step .noUser)) (List.replicate n (.step .noUser))).contact_updates = _
        rw [show applyOp s (.step .noUser) = worker_step s .noUser from rfl]
        rw [ihs.1.2.2.2, hframe.2.2.2]
    · intro t st h hr hp
      rw [hrep]
      show ∃ st', (runSteps (applyOp s (.step .noUser)) (List.replicate n (.step .noUser))).campaign_status t = some st' ∧ _
      rw [show applyOp s (.step .noUser) = worker_step s .noUser from rfl]
      refine ihs.2 t st ?_ hr hp
      rw [hframe.1]
      exact h

/-- Witness for C10: two noUser iterations on `c8StepState` change neither the
status table, the log, the attempts, nor the contact updates, and the RUNNING
campaign stays RUNNING and incomplete. -/
theorem C10_missing_user_witness :
    (runSteps c8StepState (List.replicate 2 (.step .noUser))).campaign_status 0 =
      c8StepState.campaign_status 0 ∧
    (runSteps c8StepState (List.replicate 2 (.step .noUser))).message_log = [] ∧
    (runSteps c8StepState (List.replicate 2 (.step .noUser))).send_attempts = [] ∧
    (∃ st', (runSteps c8StepState (List.replicate 2 (.step .noUser))).campaign_status 0 =
      some st' ∧ st'.status = .running ∧ st'.status ≠ .completed ∧
      st'.processed < st'.total) := by
  have h := C10_missing_user 2 c8StepState
  refine ⟨?_, ?_, ?_, ?_⟩
  · rw [h.1.1]
  · rw [h.1.2.1]
    rfl
  · rw [h.1.2.2.1]
    rfl
  · exact h.2 0
      { status := .running, total := 2, processed := 0, sent := 0, failed := 0,
        start_time := 0, delay := 2, has_media := none }
      rfl rfl (by decide)

theorem eqTable_setStatus (tbl : Nat → Option CampaignStatus) (u : Nat)
    (st : CampaignStatus) (h : eqTable tbl)
    (hst : st.processed = st.sent + st.failed) :
    eqTable (setStatus tbl u st) := by
  intro v st' hv
  by_cases hvu : v = u
  · subst hvu
    rw [setStatus_self] at hv
    cases hv
    exact hst
  · rw [setStatus_ne _ _ _ _ hvu] at hv
    exact h _ _ hv

theorem eqTable_processTask (s : EngineState) (task : Task) (o : SendOutcome)
    (h : eqTable s.campaign_status) :
    eqTable (processTask s task o).campaign_status := by
  cases o with
  | noUser => exact h
  | exn =>
    cases hcs : s.campaign_status task.user_id with
    | none => simpa [processTask, hcs] using h
    | some st =>
      have hbase := h _ _ hcs
      simp only [processTask, hcs]
      exact eqTable_setStatus _ _ _ h (by simp; omega)
  | result ok =>
    cases hcs : s.campaign_status task.user_id with
    | none => simpa [processTask, hcs] using h
    | some st =>
      have hbase := h _ _ hcs
      cases ok with
      | true =>
        simp only [processTask, hcs]
        refine eqTable_setStatus _ _ _ h ?_
        by_cases hc : st.total ≤ st.processed + 1 <;> simp [hc] <;> omega
      | false =>
        simp only [processTask, hcs]
        refine eqTable_setStatus _ _ _ h ?_
        by_cases hc : st.total ≤ st.processed + 1 <;> simp [hc] <;> omega

theorem eqTable_applyOp (s : EngineState) (op : Op)
    (h : eqTable s.campaign_status) :
    eqTable (applyOp s op).campaign_status := by
  cases op with
  | startC u c tm d now =>
    simp only [applyOp]
    unfold start_campaign
    split
    · exact h
    · split
      · exact h
      · exact eqTable_setStatus _ _ _ h (by simp)
  | startM u c tm d m now =>
    simp only [applyOp]
    unfold start_campaign_with_media
    split
    · exact h
    · split
      · exact h
      · exact eqTable_setStatus _ _ _ h (by simp)
  | stopC u =>
    simp only [applyOp]
    unfold stop_campaign
    cases hcs : s.campaign_status u with
    | none => exact h
    | some st =>
      simp only
      exact eqTable_setStatus _ _ _ h (by simpa using h _ _ hcs)
  | progressQ u now => exact h
  | step o =>
    simp only [applyOp]
    unfold worker_step
    split
    · exact h
    · dsimp only
      split
      · split
        · exact h
        · exact eqTable_processTask _ _ _ h
      · exact eqTable_processTask _ _ _ h

theorem eqTable_runSteps (ops : List Op) :
    ∀ s : EngineState, eqTable s.campaign_status →
      eqTable (runSteps s ops).campaign_status := by
  induction ops with
  | nil => exact fun _ h => h
  | cons op ops ih => exact fun s h => ih _ (eqTable_applyOp s op h)

/-! ### Queued-task counting -/
theorem tasksFor_append (u : Nat) (q1 q2 : List Task) :
    tasksFor u (q1 ++ q2) = tasksFor u q1 + tasksFor u q2 := by
  simp [tasksFor, List.filter_append]

theorem tasksFor_cons (u : Nat) (task : Task) (rest : List Task) :
    tasksFor u (task :: rest) = (if task.user_id = u then 1 else 0) + tasksFor u rest := by
  by_cases h : task.user_id = u
  · simp [tasksFor, List.filter_cons, h]
    omega
  · simp [tasksFor, List.filter_cons, h]

theorem tasksFor_rest_le (u : Nat) (task : Task) (rest : List Task) :
    tasksFor u rest ≤ tasksFor u (task :: rest) := by
  rw [tasksFor_cons]
  omega

theorem tasksFor_cons_self (u : Nat) (task : Task) (rest : List Task)
    (h : task.user_id = u) :
    tasksFor u (task :: rest) = tasksFor u rest + 1 := by
  rw [tasksFor_cons, if_pos h]
  omega

theorem tasksFor_map_mk (v u : Nat) (f : Contact → Task)
    (hf : ∀ c, (f c).user_id = u) (contacts : List Contact) :
    tasksFor v (contacts.map f) = if u = v then contacts.length else 0 := by
  induction contacts with
  | nil => simp [tasksFor]
  | cons c cs ih =>
    rw [List.map_cons, tasksFor_cons, ih, hf c]
    by_cases huv : u = v
    · simp [huv]
      omega
    · simp [huv]

theorem boundPair_setStatus (tbl : Nat → Option CampaignStatus) (q : List Task)
    (u : Nat) (st : CampaignStatus) (h : boundPair tbl q)
    (hst : st.processed + tasksFor u q ≤ st.total) :
    boundPair (setStatus tbl u st) q := by
  intro v
  constructor
  · intro hv
    by_cases hvu : v = u
    · subst hvu
      rw [setStatus_self] at hv
      cases hv
    · rw [setStatus_ne _ _ _ _ hvu] at hv
      exact (h v).1 hv
  · intro st' hv
    by_cases hvu : v = u
    · subst hvu
      rw [setStatus_self] at hv
      cases hv
      exact hst
    · rw [setStatus_ne _ _ _ _ hvu] at hv
      exact (h v).2 st' hv

theorem boundPair_pop (tbl : Nat → Option CampaignStatus) (task : Task)
    (rest : List Task) (h : boundPair tbl (task :: rest)) :
    boundPair tbl rest := by
  intro v
  have h1 := (h v).1
  have h2 := (h v).2
  have hle := tasksFor_rest_le v task rest
  constructor
  · intro hv
    have := h1 hv
    omega
  · intro st hv
    have := h2 st hv
    omega

theorem boundInv_processTask (s : EngineState) (task : Task) (o : SendOutcome)
    (h1 : boundPair s.campaign_status s.message_queue)
    (h2 : ∀ st, s.campaign_status task.user_id = some st →
        st.processed + 1 + tasksFor task.user_id s.message_queue ≤ st.total) :
    boundInv (processTask s task o) := by
  cases o with
  | noUser => exact h1
  | exn =>
    cases hcs : s.campaign_status task.user_id with
    | none => simpa [processTask, hcs] using h1
    | some st =>
      simp only [processTask, hcs]
      show boundPair _ _
      refine boundPair_setStatus _ _ _ _ h1 ?_
      have := h2 st hcs
      dsimp only
      omega
  | result ok =>
    cases hcs : s.campaign_status task.user_id with
    | none => simpa [processTask, hcs] using h1
    | some st =>
      have hb := h2 st hcs
      cases ok with
      | true =>
        simp only [processTask, hcs]
        show boundPair _ _
        refine boundPair_setStatus _ _ _ _ h1 ?_
        by_cases hc : st.total ≤ st.processed + 1 <;> simp [hc] <;> omega
      | false =>
        simp only [processTask, hcs]
        show boundPair _ _
        refine boundPair_setStatus _ _ _ _ h1 ?_
        by_cases hc : st.total ≤ st.processed + 1 <;> simp [hc] <;> omega

theorem boundInv_step (s : EngineState) (o : SendOutcome) (h : boundInv s) :
    boundInv (worker_step s o) := by
  unfold worker_step
  cases hq : s.message_queue with
  | nil => exact h
  | cons task rest =>
    dsimp only
    have hb : boundPair s.campaign_status (task :: rest) := by
      rw [← hq]
      exact h
    have hpop : boundPair s.campaign_status rest := boundPair_pop _ _ _ hb
    have hpop2 : ∀ st, s.campaign_status task.user_id = some st →
        st.processed + 1 + tasksFor task.user_id rest ≤ st.total := by
      intro st hcs
      have := (hb task.user_id).2 st hcs
      rw [tasksFor_cons_self _ _ _ rfl] at this
      omega
    cases hcs : s.campaign_status task.user_id with
    | none =>
      exact boundInv_processTask { s with message_queue := rest } task o hpop hpop2
    | some st =>
      dsimp only
      by_cases hr : st.status ≠ CState.running
      · rw [if_pos hr]
        exact hpop
      · rw [if_neg hr]
        exact boundInv_processTask { s with message_queue := rest } task o hpop hpop2

theorem boundInv_stop (s : EngineState) (u : Nat) (h : boundInv s) :
    boundInv (stop_campaign s u).2 := by
  unfold stop_campaign
  cases hcs : s.campaign_status u with
  | none => exact h
  | some st =>
    dsimp only
    show boundPair _ _
    refine boundPair_setStatus _ _ _ _ h ?_
    have := (h u).2 st hcs
    dsimp only
    omega

theorem boundPair_start (tbl : Nat → Option CampaignStatus) (q : List Task)
    (u : Nat) (f : Contact → Task) (hf : ∀ c, (f c).user_id = u)
    (contacts : List Contact) (st : CampaignStatus)
    (hst : st.processed = 0) (htot : st.total = contacts.length)
    (h : boundPair tbl q) (hq0 : tasksFor u q = 0) :
    boundPair (setStatus tbl u st) (q ++ contacts.map f) := by
  intro v
  have hq' : tasksFor v (q ++ contacts.map f) =
      tasksFor v q + (if u = v then contacts.length else 0) := by
    rw [tasksFor_append, tasksFor_map_mk v u f hf contacts]
  constructor
  · intro hv
    by_cases hvu : v = u
    · subst hvu
      rw [setStatus_self] at hv
      cases hv
    · rw [setStatus_ne _ _ _ _ hvu] at hv
      have h0 := (h v).1 hv
      rw [hq', h0, if_neg (fun hh => hvu hh.symm)]
  · intro st' hv
    by_cases hvu : v = u
    · subst hvu
      rw [setStatus_self] at hv
      cases hv
      rw [hq', hq0, hst, htot]
      simp
    · rw [setStatus_ne _ _ _ _ hvu] at hv
      rw [hq', if_neg (fun hh => hvu hh.symm)]
      have := (h v).2 st' hv
      omega

theorem boundInv_startC (s : EngineState) (u : Nat) (contacts : List Contact)
    (tmpl : List Char) (d : Nat) (now : ℚ) (h : boundInv s)
    (hq0 : tasksFor u s.message_queue = 0) :
    boundInv (start_campaign s u contacts tmpl d now).2 := by
  unfold start_campaign
  split
  · exact h
  · split
    · exact h
    · exact boundPair_start s.campaign_status s.message_queue u
        (mkPlainTask u tmpl d) (fun c => rfl) contacts _ rfl rfl h hq0

theorem boundInv_startM (s : EngineState) (u : Nat) (contacts : List Contact)
    (tmpl : List Char) (d : Nat) (media : Option (List MediaFile)) (now : ℚ)
    (h : boundInv s) (hq0 : tasksFor u s.message_queue = 0) :
    boundInv (start_campaign_with_media s u contacts tmpl d media now).2 := by
  unfold start_campaign_with_media
  split
  · exact h
  · split
    · exact h
    · exact boundPair_start s.campaign_status s.message_queue u
        (mkMediaTask u tmpl d media) (fun c => rfl) contacts _ rfl rfl h hq0

/-! ### Transfer lemmas for `hasTrace` and `startCount` -/
theorem processTask_queue (s : EngineState) (task : Task) (o : SendOutcome) :
    (processTask s task o).message_queue = s.message_queue := by
  cases o with
  | noUser => rfl
  | exn => cases hcs : s.campaign_status task.user_id <;> simp [processTask, hcs]
  | result ok =>
    cases hcs : s.campaign_status task.user_id <;> cases ok <;> simp [processTask, hcs]

theorem processTask_preserves_none (s : EngineState) (task : Task) (o : SendOutcome)
    (u : Nat) (h : s.campaign_status u = none) :
    (processTask s task o).campaign_status u = none := by
  by_cases huv : u = task.user_id
  · subst huv
    cases o with
    | noUser => exact h
    | exn => simp [processTask, h]
    | result ok => cases ok <;> simp [processTask, h]
  · rw [processTask_status_ne s task o u huv]
    exact h

theorem hasTrace_stop (s : EngineState) (v u : Nat)
    (htr : hasTrace (stop_campaign s v).2 u) : hasTrace s u := by
  unfold stop_campaign at htr
  cases hcs : s.campaign_status v with
  | none =>
    rw [hcs] at htr
    exact htr
  | some st =>
    rw [hcs] at htr
    dsimp only at htr
    rcases htr with htbl | htq
    · left
      by_cases huv : u = v
      · subst huv
        rw [hcs]
        simp
      · dsimp only at htbl
        rw [setStatus_ne _ _ _ _ huv] at htbl
        exact htbl
    · right
      exact htq

theorem hasTrace_step (s : EngineState) (o : SendOutcome) (u : Nat)
    (htr : hasTrace (worker_step s o) u) : hasTrace s u := by
  unfold worker_step at htr
  cases hq : s.message_queue with
  | nil =>
    rw [hq] at htr
    exact htr
  | cons task rest =>
    rw [hq] at htr
    dsimp only at htr
    have hrest : tasksFor u rest ≠ 0 → tasksFor u (task :: rest) ≠ 0 := by
      have := tasksFor_rest_le u task rest
      omega
    cases hcs : s.campaign_status task.user_id with
    | none =>
      rw [hcs] at htr
      dsimp only at htr
      rcases htr with htbl | htq
      · left
        intro hn
        exact htbl (processTask_preserves_none _ task o u hn)
      · right
        rw [processTask_queue] at htq
        rw [hq]
        exact hrest htq
    | some st =>
      rw [hcs] at htr
      dsimp only at htr
      by_cases hr : st.status ≠ CState.running
      · rw [if_pos hr] at htr
        rcases htr with htbl | htq
        · left
          exact htbl
        · right
          rw [hq]
          exact hrest htq
      · rw [if_neg hr] at htr
        rcases htr with htbl | htq
        · left
          intro hn
          exact htbl (processTask_preserves_none _ task o u hn)
        · right
          rw [processTask_queue] at htq
          rw [hq]
          exact hrest htq

theorem hasTrace_startC (s : EngineState) (v : Nat) (c : List Contact)
    (tm : List Char) (d : Nat) (now : ℚ) (u : Nat) (hvu : u ≠ v)
    (htr : hasTrace (start_campaign s v c tm d now).2 u) : hasTrace s u := by
  unfold start_campaign at htr
  split at htr
  · exact htr
  · split at htr
    · exact htr
    · dsimp only at htr
      rcases htr with htbl | htq
      · left
        dsimp only at htbl
        rw [setStatus_ne _ _ _ _ hvu] at htbl
        exact htbl
      · right
        dsimp only at htq
        rw [tasksFor_append,
          tasksFor_map_mk u v _ (fun cc => rfl) c,
          if_neg (fun hh => hvu hh.symm)] at htq
        omega

theorem hasTrace_startM (s : EngineState) (v : Nat) (c : List Contact)
    (tm : List Char) (d : Nat) (m : Option (List MediaFile)) (now : ℚ)
    (u : Nat) (hvu : u ≠ v)
    (htr : hasTrace (start_campaign_with_media s v c tm d m now).2 u) :
    hasTrace s u := by
  unfold start_campaign_with_media at htr
  split at htr
  · exact htr
  · split at htr
    · exact htr
    · dsimp only at htr
      rcases htr with htbl | htq
      · left
        dsimp only at htbl
        rw [setStatus_ne _ _ _ _ hvu] at htbl
        exact htbl
      · right
        dsimp only at htq
        rw [tasksFor_append,
          tasksFor_map_mk u v _ (fun cc => rfl) c,
          if_neg (fun hh => hvu hh.symm)] at htq
        omega

theorem startCount_le_cons (u : Nat) (op : Op) (ops : List Op) :
    startCount u ops ≤ startCount u (op :: ops) :=
  Nat.le_add_left _ _

theorem startCount_zero_tail (u : Nat) (op : Op) (ops : List Op)
    (h : startCount u (op :: ops) = 0) : startCount u ops = 0 :=
  Nat.le_zero.mp (h ▸ startCount_le_cons u op ops)

theorem startCount_cons_self_startC (v : Nat) (c : List Contact) (tm : List Char)
    (d : Nat) (now : ℚ) (ops : List Op) :
    startCount v (Op.startC v c tm d now :: ops) = 1 + startCount v ops := by
  show (if v = v then 1 else 0) + _ = _
  rw [if_pos rfl]

theorem startCount_cons_self_startM (v : Nat) (c : List Contact) (tm : List Char)
    (d : Nat) (m : Option (List MediaFile)) (now : ℚ) (ops : List Op) :
    startCount v (Op.startM v c tm d m now :: ops) = 1 + startCount v ops := by
  show (if v = v then 1 else 0) + _ = _
  rw [if_pos rfl]

/-! ### The bound invariant along whole executions -/
theorem boundInv_runSteps : ∀ (ops : List Op) (s : EngineState),
    boundInv s →
    (∀ u, hasTrace s u → startCount u ops = 0) →
    (∀ u, startCount u ops ≤ 1) →
    boundInv (runSteps s ops) := by
  intro ops
  induction ops with
  | nil => exact fun s h _ _ => h
  | cons op ops ih =>
    intro s h hns hcnt
    show boundInv (runSteps (applyOp s op) ops)
    cases op with
    | startC v c tm d now =>
      have hvfresh : ¬ hasTrace s v := by
        intro htr
        have h0 := hns v htr
        rw [startCount_cons_self_startC] at h0
        omega
      have hq0 : tasksFor v s.message_queue = 0 := by
        by_contra hne
        exact hvfresh (Or.inr hne)
      refine ih _ (boundInv_startC s v c tm d now h hq0) ?_ ?_
      · intro u htr
        by_cases huv : u = v
        · subst huv
          have h1 := hcnt u
          rw [startCount_cons_self_startC] at h1
          omega
        · exact startCount_zero_tail u _ ops
            (hns u (hasTrace_startC s v c tm d now u huv htr))
      · intro u
        exact le_trans (startCount_le_cons u _ ops) (hcnt u)
    | startM v c tm d m now =>
      have hvfresh : ¬ hasTrace s v := by
        intro htr
        have h0 := hns v htr
        rw [startCount_cons_self_startM] at h0
        omega
      have hq0 : tasksFor v s.message_queue = 0 := by
        by_contra hne
        exact hvfresh (Or.inr hne)
      refine ih _ (boundInv_startM s v c tm d m now h hq0) ?_ ?_
      · intro u htr
        by_cases huv : u = v
        · subst huv
          have h1 := hcnt u
          rw [startCount_cons_self_startM] at h1
          omega
        · exact startCount_zero_tail u _ ops
            (hns u (hasTrace_startM s v c tm d m now u huv htr))
      · intro u
        exact le_trans (startCount_le_cons u _ ops) (hcnt u)
    | stopC v =>
      refine ih _ (boundInv_stop s v h) ?_ ?_
      · intro u htr
        exact startCount_zero_tail u _ ops (hns u (hasTrace_stop s v u htr))
      · intro u
        exact le_trans (startCount_le_cons u _ ops) (hcnt u)
    | progressQ v now =>
      refine ih _ h ?_ ?_
      · intro u htr
        exact startCount_zero_tail u _ ops (hns u htr)
      · intro u
        exact le_trans (startCount_le_cons u _ ops) (hcnt u)
    | step o =>
      refine ih _ (boundInv_step s o h) ?_ ?_
      · intro u htr
        exact startCount_zero_tail u _ ops (hns u (hasTrace_step s o u htr))
      · intro u
        exact le_trans (startCount_le_cons u _ ops) (hcnt u)

/-- C1 (amended): in every state reachable from the fresh engine by any
sequence of start, stop, progress and dispatcher-step operations, every
tenant's counters satisfy `processed = sent + failed` (non-negativity is
inherent: the counters live in ℕ and are only ever incremented from 0); and
`processed ≤ total` holds additionally whenever no tenant is started more than
once in the sequence.  Without that restriction `processed ≤ total` fails:
stale tasks of an overwritten campaign are counted against the new campaign
(`C1_counterexample`). -/
theorem C1_counters (ops : List Op) (t : Nat) (st : CampaignStatus)
    (h : (runSteps initState ops).campaign_status t = some st) :
    st.processed = st.sent + st.failed ∧
    ((∀ u, startCount u ops ≤ 1) → st.processed ≤ st.total) := by
  have hinit1 : eqTable initState.campaign_status := by
    intro u st' hu
    simp [initState] at hu
  have hinit2 : boundInv initState := by
    intro u
    constructor
    · intro _
      rfl
    · intro st' hu
      simp [initState] at hu
  have hinit3 : ∀ u, ¬ hasTrace initState u := by
    intro u htr
    rcases htr with htbl | htq
    · exact htbl rfl
    · exact htq rfl
  constructor
  · exact eqTable_runSteps ops initState hinit1 t st h
  · intro hcnt
    have hb := boundInv_runSteps ops initState hinit2
      (fun u htr => absurd htr (hinit3 u)) hcnt
    have := (hb t).2 st h
    omega

/-- Witness for C1 on the single-start trace: both counter invariants hold in
the reached state. -/
theorem C1_counters_witness :
    c1SingleFinal.processed = c1SingleFinal.sent + c1SingleFinal.failed ∧
    c1SingleFinal.processed ≤ c1SingleFinal.total := by
  have h := C1_counters c1SingleTrace 0 c1SingleFinal (by decide)
  refine ⟨h.1, h.2 ?_⟩
  intro u
  show (if 0 = u then 1 else 0) + 0 ≤ 1
  split <;> omega

/-! ### Structure of `replaceAll` runs (claims C7, C9) -/
theorem replaceAllAux_skip (pat rep : List Char) (xs t : List Char) :
    replaceAllAux pat rep (xs ++ t) xs.length = replaceAllAux pat rep t 0 := by
  induction xs with
  | nil => rfl
  | cons x xs ih => exact ih

theorem replaceAllAux_match (pat rep t : List Char) (hp : pat ≠ []) :
    replaceAllAux pat rep (pat ++ t) 0 = rep ++ replaceAllAux pat rep t 0 := by
  cases pat with
  | nil => exact absurd rfl hp
  | cons c p =>
    show replaceAllAux (c :: p) rep (c :: (p ++ t)) 0 = _
    simp only [replaceAllAux]
    rw [if_pos ⟨hp, List.isPrefixOf_iff_prefix.mpr (List.prefix_append (c :: p) t)⟩]
    show rep ++ replaceAllAux (c :: p) rep (p ++ t) p.length = _
    rw [replaceAllAux_skip]

theorem replaceAllAux_copy (pat rep : List Char) (c : Char) (s : List Char)
    (h : ¬ pat <+: (c :: s)) :
    replaceAllAux pat rep (c :: s) 0 = c :: replaceAllAux pat rep s 0 := by
  simp only [replaceAllAux]
  rw [if_neg]
  intro hcon
  exact h ( List.isPrefixOf_iff_prefix.mp hcon.2)

theorem replaceAllAux_skip_clean (q rep : List Char) (xs t : List Char)
    (hx : '{' ∉ xs) :
    replaceAllAux ('{' :: q) rep (xs ++ t) 0 = xs ++ replaceAllAux ('{' :: q) rep t 0 := by
  induction xs with
  | nil => rfl
  | cons x xs ih =>
    have hx1 : x ≠ '{' := fun hh => hx (hh ▸ List.mem_cons_self _ _)
    have hnp : ¬ ('{' :: q) <+: (x :: (xs ++ t)) := by
      intro hcon
      rw [List.cons_prefix_cons] at hcon
      exact hx1 hcon.1.symm
    calc replaceAllAux ('{' :: q) rep ((x :: xs) ++ t) 0
        = x :: replaceAllAux ('{' :: q) rep (xs ++ t) 0 :=
          replaceAllAux_copy _ _ _ _ hnp
      _ = x :: (xs ++ replaceAllAux ('{' :: q) rep t 0) := by
          rw [ih (fun hm => hx (List.mem_cons_of_mem _ hm))]
      _ = (x :: xs) ++ replaceAllAux ('{' :: q) rep t 0 := rfl

theorem token_no_match : ∀ (q b t : List Char), '}' ∉ q → '}' ∉ b → q ≠ b →
    ¬ (q ++ ['}']) <+: (b ++ '}' :: t) := by
  intro q
  induction q with
  | nil =>
    intro b t _ hb hne hcon
    cases b with
    | nil => exact hne rfl
    | cons c b2 =>
      rw [List.nil_append, List.cons_append, List.cons_prefix_cons] at hcon
      refine hb ?_
      rw [← hcon.1]
      exact List.mem_cons_self _ _
  | cons a q2 ih =>
    intro b t hq hb hne hcon
    cases b with
    | nil =>
      rw [List.cons_append, List.nil_append, List.cons_prefix_cons] at hcon
      refine hq ?_
      rw [hcon.1]
      exact List.mem_cons_self _ _
    | cons c b2 =>
      rw [List.cons_append, List.cons_append, List.cons_prefix_cons] at hcon
      obtain ⟨hac, hrest⟩ := hcon
      have hq2 : '}' ∉ q2 := fun hm => hq (List.mem_cons_of_mem _ hm)
      have hb2 : '}' ∉ b2 := fun hm => hb (List.mem_cons_of_mem _ hm)
      have hne2 : q2 ≠ b2 := by
        intro hh
        refine hne ?_
        rw [hac, hh]
      exact ih b2 t hq2 hb2 hne2 hrest

/-- One `str.replace` pass over a template decomposed into well-formed pieces
replaces exactly the `{q}` tokens and copies everything else verbatim. -/
theorem replaceAll_pieces (q rep : List Char) (hq2 : '}' ∉ q) :
    ∀ ps : List GPiece, (∀ g ∈ ps, g.wf q) →
      replaceAll ('{' :: (q ++ ['}'])) rep (ps.flatMap (GPiece.flat q)) =
        ps.flatMap (GPiece.subst rep) := by
  intro ps
  induction ps with
  | nil =>
    intro _
    rfl
  | cons g ps ih =>
    intro hwf
    have hg := hwf g (List.mem_cons_self _ _)
    have hps : ∀ g2 ∈ ps, g2.wf q := fun g2 hm => hwf g2 (List.mem_cons_of_mem _ hm)
    cases g with
    | glit s =>
      show replaceAllAux ('{' :: (q ++ ['}'])) rep (s ++ ps.flatMap (GPiece.flat q)) 0 =
        s ++ ps.flatMap (GPiece.subst rep)
      rw [replaceAllAux_skip_clean _ rep s _ hg.1]
      rw [show replaceAllAux ('{' :: (q ++ ['}'])) rep (ps.flatMap (GPiece.flat q)) 0 =
        ps.flatMap (GPiece.subst rep) from ih hps]
    | gtok =>
      show replaceAllAux ('{' :: (q ++ ['}'])) rep
        (('{' :: (q ++ ['}'])) ++ ps.flatMap (GPiece.flat q)) 0 = rep ++ _
      rw [replaceAllAux_match _ rep _ (by simp)]
      rw [show replaceAllAux ('{' :: (q ++ ['}'])) rep (ps.flatMap (GPiece.flat q)) 0 =
        ps.flatMap (GPiece.subst rep) from ih hps]
      rfl
    | gother b =>
      have hnp : ¬ ('{' :: (q ++ ['}'])) <+:
          ('{' :: ((b ++ ['}']) ++ ps.flatMap (GPiece.flat q))) := by
        intro hcon
        rw [List.cons_prefix_cons] at hcon
        have h2 := hcon.2
        rw [List.append_assoc] at h2
        exact token_no_match q b (ps.flatMap (GPiece.flat q)) hq2 hg.1.2
          (fun hh => hg.2 hh.symm) h2
      have hbn : '{' ∉ b ++ ['}'] := by
        intro hm
        rcases List.mem_append.mp hm with hm1 | hm2
        · exact hg.1.1 hm1
        · rw [List.mem_singleton] at hm2
          cases hm2
      show replaceAllAux ('{' :: (q ++ ['}'])) rep
        ('{' :: ((b ++ ['}']) ++ ps.flatMap (GPiece.flat q))) 0 =
        ('{' :: (b ++ ['}'])) ++ ps.flatMap (GPiece.subst rep)
      rw [replaceAllAux_copy _ _ _ _ hnp]
      rw [replaceAllAux_skip_clean _ rep (b ++ ['}']) _ hbn]
      rw [show replaceAllAux ('{' :: (q ++ ['}'])) rep (ps.flatMap (GPiece.flat q)) 0 =
        ps.flatMap (GPiece.subst rep) from ih hps]
      rfl

theorem flat_toName (ps : List TemplatePiece) :
    ps.flatMap TemplatePiece.flat =
      (ps.map pieceToName).flatMap (GPiece.flat ("name".toList)) := by
  induction ps with
  | nil => rfl
  | cons pc ps ih =>
    cases pc with
    | lit s => exact congrArg (s ++ ·) ih
    | nameTok => exact congrArg (("{name}".toList) ++ ·) ih
    | phoneTok => exact congrArg (("{phone}".toList) ++ ·) ih
    | otherTok b => exact congrArg (('{' :: (b ++ ['}'])) ++ ·) ih

theorem subst_toPhone (ps : List TemplatePiece) (n : List Char) :
    (ps.map pieceToName).flatMap (GPiece.subst n) =
      (ps.map (pieceToPhone n)).flatMap (GPiece.flat ("phone".toList)) := by
  induction ps with
  | nil => rfl
  | cons pc ps ih =>
    cases pc with
    | lit s => exact congrArg (s ++ ·) ih
    | nameTok => exact congrArg (n ++ ·) ih
    | phoneTok => exact congrArg (('{' :: ("phone".toList ++ ['}'])) ++ ·) ih
    | otherTok b => exact congrArg (('{' :: (b ++ ['}'])) ++ ·) ih

theorem subst_final (ps : List TemplatePiece) (n p : List Char) :
    (ps.map (pieceToPhone n)).flatMap (GPiece.subst p) =
      ps.flatMap (TemplatePiece.subst n p) := by
  induction ps with
  | nil => rfl
  | cons pc ps ih =>
    cases pc with
    | lit s => exact congrArg (s ++ ·) ih
    | nameTok => exact congrArg (n ++ ·) ih
    | phoneTok => exact congrArg (p ++ ·) ih
    | otherTok b => exact congrArg (('{' :: (b ++ ['}'])) ++ ·) ih

theorem wf_toName (ps : List TemplatePiece) (hwf : ∀ pc ∈ ps, pc.wf) :
    ∀ g ∈ ps.map pieceToName, g.wf ("name".toList) := by
  intro g hg
  rcases List.mem_map.mp hg with ⟨pc, hpc, rfl⟩
  have := hwf pc hpc
  cases pc with
  | lit s => exact this
  | nameTok => trivial
  | phoneTok => exact ⟨by decide, by decide⟩
  | otherTok b => exact ⟨this.1, this.2.1⟩

theorem wf_toPhone (ps : List TemplatePiece) (n : List Char)
    (hwf : ∀ pc ∈ ps, pc.wf) (hn : braceFree n) :
    ∀ g ∈ ps.map (pieceToPhone n), g.wf ("phone".toList) := by
  intro g hg
  rcases List.mem_map.mp hg with ⟨pc, hpc, rfl⟩
  have := hwf pc hpc
  cases pc with
  | lit s => exact this
  | nameTok => exact hn
  | phoneTok => trivial
  | otherTok b => exact ⟨this.1, this.2.2⟩

/-- C7 (amended): `_personalize_message` applies the two replacements
sequentially (`{name}` first, then `{phone}` over the result), so substituted
text can itself be substituted again (see `C7_counterexample`).  Whenever the
template decomposes into brace-free literals and complete brace tokens and the
substituted name (after the `'User'` default) is brace-free, the sequential
result coincides with the claimed simultaneous substitution: every `{name}`
becomes the contact's name (or `"User"` when missing/empty), every `{phone}`
the contact's phone, and any other brace token stays verbatim. -/
theorem C7_placeholders (pieces : List TemplatePiece) (name phone : List Char)
    (hwf : ∀ pc ∈ pieces, pc.wf) (hn : braceFree (defaultName name)) :
    personalizeMessage (pieces.flatMap TemplatePiece.flat) name phone =
      pieces.flatMap (TemplatePiece.subst (defaultName name) phone) := by
  unfold personalizeMessage
  rw [show ("{name}".toList) = '{' :: ("name".toList ++ ['}']) from by decide,
    show ("{phone}".toList) = '{' :: ("phone".toList ++ ['}']) from by decide]
  rw [flat_toName pieces]
  rw [replaceAll_pieces ("name".toList) (defaultName name) (by decide)
    (pieces.map pieceToName) (wf_toName pieces hwf)]
  rw [subst_toPhone pieces (defaultName name)]
  rw [replaceAll_pieces ("phone".toList) phone (by decide)
    (pieces.map (pieceToPhone (defaultName name))) (wf_toPhone pieces _ hwf hn)]
  exact subst_final pieces (defaultName name) phone

/-- C7 counterexample: for the template `"{name}"` with contact name
`"{phone}"` and phone `"+1555"`, the code's sequential replacement turns the
name text itself into the phone number, while the claimed substitution leaves
the inserted name verbatim — so `{name}` is NOT replaced by the contact's
name. -/
theorem C7_counterexample :
    personalizeMessage ("{name}".toList) ("{phone}".toList) ("+1555".toList) =
      ("+1555".toList) ∧
    specPersonalize ("{name}".toList) ("{phone}".toList) ("+1555".toList) =
      ("{phone}".toList) ∧
    personalizeMessage ("{name}".toList) ("{phone}".toList) ("+1555".toList) ≠
      specPersonalize ("{name}".toList) ("{phone}".toList) ("+1555".toList) := by
  refine ⟨by decide, by decide, by decide⟩

/-- Witness for C7: the claim's own example, template
`"Hi {name}, your number is {phone}"` with contact Ana / +1555. -/
theorem C7_placeholders_witness :
    personalizeMessage ("Hi {name}, your number is {phone}".toList)
      ("Ana".toList) ("+1555".toList) = ("Hi Ana, your number is +1555".toList) := by
  have h := C7_placeholders c7Pieces ("Ana".toList) ("+1555".toList)
    (by decide) (by decide)
  rw [show ("Hi {name}, your number is {phone}".toList) =
    c7Pieces.flatMap TemplatePiece.flat from by decide]
  rw [h]
  decide

/-! ### Claim C9: shape and order of enqueued tasks -/
theorem replaceAll_ne_nil (pat rep s : List Char) (hs : s ≠ []) (hr : rep ≠ []) :
    replaceAll pat rep s ≠ [] := by
  cases s with
  | nil => exact absurd rfl hs
  | cons c rest =>
    show replaceAllAux pat rep (c :: rest) 0 ≠ []
    simp only [replaceAllAux]
    split
    · simp [hr]
    · simp

theorem defaultName_ne_nil (n : List Char) : defaultName n ≠ [] := by
  unfold defaultName
  split
  · decide
  · assumption

theorem personalizeMessage_ne_nil (template name phone : List Char)
    (ht : template ≠ []) (hp : phone ≠ []) :
    personalizeMessage template name phone ≠ [] := by
  unfold personalizeMessage
  exact replaceAll_ne_nil _ _ _
    (replaceAll_ne_nil _ _ _ ht (defaultName_ne_nil name)) hp

/-- C9 (amended): both start operations enqueue exactly one task per contact,
appended to the queue in input contact order (FIFO), and — provided every
contact's phone is non-empty — each enqueued task has a non-empty rendered
message or (for the media variant) truthy media payloads, never both absent.
With an empty phone the rendered message of a `"{phone}"` template collapses
to the empty string and the invariant fails (`C9_counterexample`). -/
theorem C9_enqueue (s : EngineState) (u : Nat) (contacts : List Contact)
    (tmpl : List Char) (d : Nat) (media : Option (List MediaFile)) (now : ℚ)
    (hphones : ∀ c ∈ contacts, c.phone ≠ []) :
    (contacts ≠ [] → tmpl ≠ [] →
       (start_campaign s u contacts tmpl d now).2.message_queue =
         s.message_queue ++ contacts.map (mkPlainTask u tmpl d) ∧
       ∀ c ∈ contacts, (mkPlainTask u tmpl d c).message ≠ []) ∧
    (contacts ≠ [] → (tmpl = [] → mediaTruthy media = true) →
       (start_campaign_with_media s u contacts tmpl d media now).2.message_queue =
         s.message_queue ++ contacts.map (mkMediaTask u tmpl d media) ∧
       ∀ c ∈ contacts, (mkMediaTask u tmpl d media c).message ≠ [] ∨
         mediaTruthy (mkMediaTask u tmpl d media c).media_files = true) := by
  constructor
  · intro hc ht
    constructor
    · simp [start_campaign, hc, ht]
    · intro c hm
      exact personalizeMessage_ne_nil tmpl (contactName c) c.phone ht (hphones c hm)
  · intro hc hcond
    constructor
    · have hng : ¬ (tmpl = [] ∧ mediaTruthy media = false) := by
        rintro ⟨h1, h2⟩
        rw [hcond h1] at h2
        cases h2
      simp [start_campaign_with_media, hc, hng]
    · intro c hm
      by_cases ht : tmpl = []
      · right
        exact hcond ht
      · left
        show (if tmpl ≠ [] then personalizeMessage tmpl (contactName c) c.phone else []) ≠ []
        rw [if_pos ht]
        exact personalizeMessage_ne_nil tmpl (contactName c) c.phone ht (hphones c hm)

/-- C9 counterexample: a contact with an empty phone and the template
`"{phone}"` pass validation (`start_campaign` succeeds) yet the enqueued task
has an empty rendered message AND no media payloads — both empty, violating
the claimed invariant. -/
theorem C9_counterexample :
    (start_campaign initState 0 [⟨[], none⟩] ("{phone}".toList) 2 0).1.success = true ∧
    (start_campaign initState 0 [⟨[], none⟩] ("{phone}".toList) 2 0).2.message_queue =
      [{ user_id := 0, phone := [], message := [], media_files := none, delay := 2 }] := by
  refine ⟨by decide, by decide⟩

/-- Witness for C9: a one-contact campaign with contact Ana / +1555 enqueues
exactly the personalized task, whose rendered message is non-empty. -/
theorem C9_enqueue_witness :
    (start_campaign initState 0 [⟨"+1555".toList, some ("Ana".toList)⟩]
      ("Hi {name}".toList) 2 0).2.message_queue =
      [mkPlainTask 0 ("Hi {name}".toList) 2 ⟨"+1555".toList, some ("Ana".toList)⟩] ∧
    (mkPlainTask 0 ("Hi {name}".toList) 2 ⟨"+1555".toList, some ("Ana".toList)⟩).message ≠ [] := by
  have h := (C9_enqueue initState 0 [⟨"+1555".toList, some ("Ana".toList)⟩]
    ("Hi {name}".toList) 2 none 0 (by decide)).1 (by decide) (by decide)
  exact ⟨by simpa using h.1, h.2 _ (List.mem_cons_self _ _)⟩

end MessageHub
